import Mathlib

/-!
Verification of the web-ble-bridge log buffer, bridge-server scan guard,
MCP HTTP authentication and the e2e battery test page, as a shallow
embedding of the TypeScript source.
-/

namespace WebBleBridge

/-- Packet direction, from the LogEntry interface: `direction: "TX" | "RX"`. -/
inductive Direction where
  | TX
  | RX
deriving DecidableEq, Repr

/-- A log entry, from the LogEntry interface in src/log-buffer.ts: global
sequence number `id`, capture `timestamp` (modelled as epoch milliseconds),
`direction`, the raw payload bytes (rendered as `hex` in the source), and
`size` the byte count. -/
structure LogEntry where
  id : Nat
  timestamp : Int
  direction : Direction
  payload : List Nat
  size : Nat
deriving DecidableEq, Repr

/-- The LogBuffer state: `buffer` (the retained entries, oldest first),
`maxSize` (capacity), `sequenceCounter` (global sequence counter), and
`clientPositions` (client id to last-seen sequence id), from the class
fields of LogBuffer in the source. -/
structure LogBuffer where
  buffer : List LogEntry
  maxSize : Nat
  sequenceCounter : Nat
  clientPositions : List (String × Nat)
deriving DecidableEq, Repr

/-- A fresh LogBuffer with a given capacity and no entries. -/
def LogBuffer.empty (cap : Nat) : LogBuffer :=
  { buffer := [], maxSize := cap, sequenceCounter := 0, clientPositions := [] }

/-! ## Capacity resolution (LogBuffer constructor) -/

/-- From the source constructor: the bounds check
`if (this.maxSize < 100) this.maxSize = 100; if (this.maxSize > 1000000) this.maxSize = 1000000`. -/
def clampSize (n : Int) : Int :=
  let n := if n < 100 then 100 else n
  if n > 1000000 then 1000000 else n

/-- From the source constructor: `parseInt(process.env.LOG_BUFFER_SIZE || "10000", 10)`.
The environment value is modelled as the already-parsed integer when the
variable is set. -/
def envSizeOrDefault (envVal : Option Int) : Int :=
  match envVal with
  | some v => v
  | none => 10000

/-- From the source constructor:
`this.maxSize = maxSize || parseInt(process.env.LOG_BUFFER_SIZE || "10000", 10)`.
JavaScript `||` takes the right operand when the left is absent or `0`
(falsy), so a constructor argument of `0` falls through to the
environment value or the default. -/
def rawMaxSize (ctorArg : Option Int) (envVal : Option Int) : Int :=
  match ctorArg with
  | some a => if a = 0 then envSizeOrDefault envVal else a
  | none => envSizeOrDefault envVal

/-- The effective capacity produced by the LogBuffer constructor for a
given constructor argument and environment configuration. -/
def effectiveMaxSize (ctorArg : Option Int) (envVal : Option Int) : Int :=
  clampSize (rawMaxSize ctorArg envVal)

/-! ## Bridge server scan guard (BridgeServer.scanDevices) -/

/-- Connection states of the bridge transport, from the spec state machine
and the `getState()` values used by the source. -/
inductive ConnState where
  | idle
  | scanning
  | connecting
  | connected
  | disconnecting
deriving DecidableEq, Repr

/-- The DeviceSession snapshot relevant to the scan guard: connection
state and the two packet counters of the ConnectionState interface. -/
structure DeviceSession where
  state : ConnState
  packetsTransmitted : Nat
  packetsReceived : Nat
deriving DecidableEq, Repr

/-- A discovered device, from the `devices.map` in scanDevices:
id, name, rssi. -/
structure DeviceInfo where
  id : String
  name : String
  rssi : Int
deriving DecidableEq, Repr

/-- The error message thrown by scanDevices when the guard fires. -/
def scanConflictMsg : String :=
  "Cannot scan while connected to a device. Please disconnect first."

/-- From the source `BridgeServer.scanDevices`: the guard checks only
`this.transport?.getState() === "connected"` and throws; otherwise the
scan proceeds (the discovered devices are an input here, supplied by the
adapter). The session is returned alongside the outcome to make visible
that the call never mutates it. -/
def scanDevices (s : DeviceSession) (found : List DeviceInfo) :
    DeviceSession × Except String (List DeviceInfo) :=
  if s.state = ConnState.connected then
    (s, Except.error scanConflictMsg)
  else
    (s, Except.ok found)

/-! ## Appending to the buffer (LogBuffer.push) -/

/-- A push request: capture timestamp, direction and payload bytes of
one `push(direction, data)` call. -/
structure PushReq where
  timestamp : Int
  direction : Direction
  payload : List Nat
deriving DecidableEq, Repr

/-- Modelled from the spec: the body of `LogBuffer.push` is not in the
source (only its signature and the circular-buffer task description);
per the contract it assigns the next sequence number, appends the new
entry, and evicts the oldest entries when the capacity is exceeded. -/
def LogBuffer.push (b : LogBuffer) (r : PushReq) : LogBuffer :=
  let newId := b.sequenceCounter + 1
  let e : LogEntry := ⟨newId, r.timestamp, r.direction, r.payload, r.payload.length⟩
  let buf := b.buffer ++ [e]
  let buf := if b.maxSize < buf.length then buf.drop (buf.length - b.maxSize) else buf
  { b with buffer := buf, sequenceCounter := newId }

/-- Push a whole sequence of requests, oldest first. -/
def LogBuffer.pushMany (b : LogBuffer) (L : List PushReq) : LogBuffer :=
  L.foldl LogBuffer.push b

/-- The entries a sequence of pushes creates when the sequence counter
starts at `k`: ids `k+1`, `k+2`, ... -/
def numberedFrom (k : Nat) : List PushReq → List LogEntry
  | [] => []
  | r :: rs =>
      ⟨k + 1, r.timestamp, r.direction, r.payload, r.payload.length⟩ :: numberedFrom (k + 1) rs

theorem numberedFrom_append (k : Nat) (L M : List PushReq) :
    numberedFrom k (L ++ M) = numberedFrom k L ++ numberedFrom (k + L.length) M := by
  induction L generalizing k with
  | nil => simp [numberedFrom]
  | cons r rs ih =>
      have step : numberedFrom k ((r :: rs) ++ M)
          = ⟨k + 1, r.timestamp, r.direction, r.payload, r.payload.length⟩
              :: numberedFrom (k + 1) (rs ++ M) := rfl
      have h : k + 1 + rs.length = k + (rs.length + 1) := by omega
      rw [step, ih (k + 1), h]
      rfl

theorem numberedFrom_length (k : Nat) (L : List PushReq) :
    (numberedFrom k L).length = L.length := by
  induction L generalizing k with
  | nil => rfl
  | cons r rs ih => simp [numberedFrom, ih]

theorem numberedFrom_map_id (k : Nat) (L : List PushReq) :
    (numberedFrom k L).map LogEntry.id = List.range' (k + 1) L.length := by
  induction L generalizing k with
  | nil => rfl
  | cons r rs ih =>
      simp only [numberedFrom, List.map_cons, List.length_cons,
        List.range'_succ (k + 1) rs.length 1, ih (k + 1)]

theorem numberedFrom_map_timestamp (k : Nat) (L : List PushReq) :
    (numberedFrom k L).map LogEntry.timestamp = L.map PushReq.timestamp := by
  induction L generalizing k with
  | nil => rfl
  | cons r rs ih => simp [numberedFrom, ih]

/-- Closed form of a push trace into a fresh buffer: the counter equals
the number of pushes, and the retained entries are the numbered entries
of the trace with the oldest `N - C` dropped. -/
theorem pushMany_empty_closed (C : Nat) (hC : 1 ≤ C) (L : List PushReq) :
    ((LogBuffer.empty C).pushMany L).maxSize = C ∧
    ((LogBuffer.empty C).pushMany L).sequenceCounter = L.length ∧
    ((LogBuffer.empty C).pushMany L).buffer
      = (numberedFrom 0 L).drop (L.length - C) := by
  induction L using List.reverseRecOn with
  | nil =>
      refine ⟨rfl, rfl, ?_⟩
      simp [LogBuffer.pushMany, LogBuffer.empty, numberedFrom]
  | append_singleton L x ih =>
      obtain ⟨hmax, hcnt, hbuf⟩ := ih
      have hstep : (LogBuffer.empty C).pushMany (L ++ [x])
          = ((LogBuffer.empty C).pushMany L).push x := by
        simp [LogBuffer.pushMany, List.foldl_append]
      set b := (LogBuffer.empty C).pushMany L with hb
      have hEn : numberedFrom 0 (L ++ [x])
          = numberedFrom 0 L ++ [⟨L.length + 1, x.timestamp, x.direction, x.payload, x.payload.length⟩] := by
        rw [numberedFrom_append]
        simp [numberedFrom]
      have hlenE : (numberedFrom 0 L).length = L.length := numberedFrom_length 0 L
      rw [hstep]
      refine ⟨hmax, ?_, ?_⟩
      · simp only [LogBuffer.push, hmax, hcnt]
        simp
      · simp only [LogBuffer.push, hmax, hcnt, hbuf, hEn]
        have hlen' : (L ++ [x]).length = L.length + 1 := by simp
        have hA : ((numberedFrom 0 L).drop (L.length - C)).length
            = L.length - (L.length - C) := by
          rw [List.length_drop, hlenE]
        have hlenB : ((numberedFrom 0 L).drop (L.length - C)
            ++ [(⟨L.length + 1, x.timestamp, x.direction, x.payload, x.payload.length⟩ : LogEntry)]).length
            = (L.length - (L.length - C)) + 1 := by
          rw [List.length_append, hA]
          rfl
        rw [hlen', hlenB]
        by_cases hNC : L.length < C
        · rw [if_neg (by omega)]
          have h1 : L.length - C = 0 := by omega
          have h2 : L.length + 1 - C = 0 := by omega
          rw [h1, h2, List.drop_zero, List.drop_zero]
        · -- C ≤ L.length : one entry is evicted
          rw [if_pos (by omega)]
          have h3 : L.length - (L.length - C) + 1 - C = 1 := by omega
          rw [h3]
          rw [List.drop_append_of_le_length (by rw [hA]; omega)]
          rw [List.drop_drop]
          rw [List.drop_append_of_le_length (by rw [hlenE]; omega)]
          congr 2
          omega

/-- Dropping from an arithmetic range shifts its start. -/
theorem range'_drop (i s n : Nat) :
    (List.range' s n).drop i = List.range' (s + i) (n - i) := by
  induction i generalizing s n with
  | zero => simp
  | succ j ih =>
      cases n with
      | zero => simp
      | succ m =>
          rw [List.range'_succ s m 1]
          show (List.range' (s + 1) m).drop j = _
          rw [ih (s + 1) m]
          have h1 : s + 1 + j = s + (j + 1) := by omega
          have h2 : m - j = m + 1 - (j + 1) := by omega
          rw [h1, h2]

/-! ## Theorems for C2 (retention and sequence ids) -/

/-- C2: for every sequence of appends into a fresh buffer of capacity C,
the buffer retains exactly the last min(N, C) entries; their sequence
ids form the contiguous strictly ascending range ending at N (so ids
are never reused after eviction and eviction never renumbers or
reorders retained entries); when C < N exactly the last C are kept,
the oldest retained id being N - C + 1; in particular after 15000
appends into a capacity-10000 buffer (first id 1) the oldest retained
id is 5001. -/
theorem logBuffer_retention (C : Nat) (hC : 1 ≤ C) (L : List PushReq) :
    ((LogBuffer.empty C).pushMany L).buffer.length = min L.length C ∧
    ((LogBuffer.empty C).pushMany L).buffer.map LogEntry.id
      = List.range' (L.length + 1 - min L.length C) (min L.length C) ∧
    List.Pairwise (fun a b => a.id < b.id) ((LogBuffer.empty C).pushMany L).buffer ∧
    (C < L.length → ((LogBuffer.empty C).pushMany L).buffer.map LogEntry.id
      = List.range' (L.length - C + 1) C) ∧
    (L.length = 15000 → C = 10000 →
      (((LogBuffer.empty C).pushMany L).buffer.map LogEntry.id).head? = some 5001) := by
  obtain ⟨hmax, hcnt, hbuf⟩ := pushMany_empty_closed C hC L
  have key : ((LogBuffer.empty C).pushMany L).buffer.map LogEntry.id
      = List.range' (1 + (L.length - C)) (L.length - (L.length - C)) := by
    rw [hbuf, List.map_drop, numberedFrom_map_id, range'_drop]
  have conj2 : ((LogBuffer.empty C).pushMany L).buffer.map LogEntry.id
      = List.range' (L.length + 1 - min L.length C) (min L.length C) := by
    have e1 : 1 + (L.length - C) = L.length + 1 - min L.length C := by omega
    have e2 : L.length - (L.length - C) = min L.length C := by omega
    rw [key, e1, e2]
  refine ⟨?_, conj2, ?_, fun h => ?_, fun h1 h2 => ?_⟩
  · rw [hbuf, List.length_drop, numberedFrom_length]
    omega
  · have hp : List.Pairwise (· < ·)
        (((LogBuffer.empty C).pushMany L).buffer.map LogEntry.id) := by
      rw [conj2]
      exact List.pairwise_lt_range' _ _ 1 (by omega)
    exact List.pairwise_map.mp hp
  · have e1 : 1 + (L.length - C) = L.length - C + 1 := by omega
    have e2 : L.length - (L.length - C) = C := by omega
    rw [key, e1, e2]
  · rw [key, h1, h2]
    have e1 : 1 + (15000 - 10000) = 5001 := by norm_num
    have e2 : 15000 - (15000 - 10000) = 10000 := by norm_num
    rw [e1, e2]
    show (List.range' 5001 (9999 + 1)).head? = some 5001
    rw [List.range'_succ]
    rfl

/-- C2, witness: three pushes into a capacity-2 buffer retain ids 2 and 3. -/
theorem logBuffer_retention_witness :
    ((LogBuffer.empty 2).pushMany
        [⟨0, Direction.TX, [1]⟩, ⟨1, Direction.RX, [2]⟩, ⟨2, Direction.TX, [3]⟩]).buffer.map
      LogEntry.id = List.range' 2 2 := by
  have h := (logBuffer_retention 2 (by decide)
      [⟨0, Direction.TX, [1]⟩, ⟨1, Direction.RX, [2]⟩, ⟨2, Direction.TX, [3]⟩]).2.2.2.1
    (by decide)
  simpa using h

/-! ## Time-based query resolution (LogBuffer.parseSince) -/

/-- JavaScript `Array.prototype.findIndex`, index form: the index of
the first element satisfying the predicate, `none` when there is none
(the source renders `none` as `-1`). -/
def jsFindIdx {α : Type} (p : α → Bool) : List α → Option Nat
  | [] => none
  | a :: l => if p a then some 0 else (jsFindIdx p l).map (· + 1)

/-- From the source parseSince (duration and ISO branches):
`this.buffer.findIndex(e => new Date(e.timestamp).getTime() > cutoffTime)`,
yielding `-1` when no retained entry is strictly after the cutoff. -/
def parseSinceIndex (buffer : List LogEntry) (cutoff : Int) : Int :=
  match jsFindIdx (fun e => decide (cutoff < e.timestamp)) buffer with
  | some i => (i : Int)
  | none => -1

/-- Duration units accepted by the parseSince regex `(\d+)([smh])`. -/
inductive DurationUnit where
  | s
  | m
  | h
deriving DecidableEq, Repr

/-- From the source: `const multipliers = { s: 1000, m: 60000, h: 3600000 }`. -/
def unitMultiplier : DurationUnit → Int
  | DurationUnit.s => 1000
  | DurationUnit.m => 60000
  | DurationUnit.h => 3600000

/-- From the source: the duration-string cutoff
`Date.now() - (parseInt(num) * multipliers[unit])`. -/
def durationCutoff (now : Int) (num : Nat) (u : DurationUnit) : Int :=
  now - num * unitMultiplier u

/-- Modelled from the spec: the body of getLogsSince past the index
resolution is not in the source (parseSince only computes the start
index); per the spec the query returns the retained entries from the
resolved start position up to the limit and never fails — when no
retained entry is strictly after the cutoff the result is empty. -/
def getLogsSinceTime (buffer : List LogEntry) (cutoff : Int) (limit : Nat) : List LogEntry :=
  let idx := parseSinceIndex buffer cutoff
  if idx < 0 then [] else (buffer.drop idx.toNat).take limit

theorem getLogsSinceTime_cons (e : LogEntry) (rest : List LogEntry) (cutoff : Int)
    (limit : Nat) :
    getLogsSinceTime (e :: rest) cutoff limit
      = if cutoff < e.timestamp then (e :: rest).take limit
        else getLogsSinceTime rest cutoff limit := by
  by_cases hp : cutoff < e.timestamp
  · simp [getLogsSinceTime, parseSinceIndex, jsFindIdx, hp]
  · rw [if_neg hp]
    cases hfi : jsFindIdx (fun x => decide (cutoff < x.timestamp)) rest with
    | none =>
        have hcons : jsFindIdx (fun x => decide (cutoff < x.timestamp)) (e :: rest)
            = none := by
          simp [jsFindIdx, hp, hfi]
        simp [getLogsSinceTime, parseSinceIndex, hcons, hfi]
    | some i =>
        have hcons : jsFindIdx (fun x => decide (cutoff < x.timestamp)) (e :: rest)
            = some (i + 1) := by
          simp [jsFindIdx, hp, hfi]
        simp only [getLogsSinceTime, parseSinceIndex, hcons, hfi]
        have h1 : ¬ (((i + 1 : Nat) : Int) < 0) := by omega
        have h2 : ¬ (((i : Nat) : Int) < 0) := by omega
        rw [if_neg h1, if_neg h2]
        have h3 : ((i + 1 : Nat) : Int).toNat = i + 1 := by omega
        have h4 : ((i : Nat) : Int).toNat = i := by omega
        rw [h3, h4]
        rfl

/-! ## Cursor tracking -/

/-- From the source parseSince "last" branch:
`this.clientPositions.get(clientId) || 0` — a client with no recorded
cursor defaults to position 0, the start of retained history. The Map
is modelled as an association list where the newest binding wins. -/
def getClientPosition (ps : List (String × Nat)) (clientId : String) : Nat :=
  match ps.lookup clientId with
  | some v => v
  | none => 0

/-- From the source: `updateClientPosition(clientId, lastSeenId)`
records the client cursor (Map.set, newest binding shadows older). -/
def updateClientPosition (ps : List (String × Nat)) (clientId : String)
    (lastSeenId : Nat) : List (String × Nat) :=
  (clientId, lastSeenId) :: ps

/-- Advance the cursor of one client in the buffer state. -/
def LogBuffer.advanceCursor (b : LogBuffer) (clientId : String) (k : Nat) : LogBuffer :=
  { b with clientPositions := updateClientPosition b.clientPositions clientId k }

/-- Modelled from the spec: the "last" query path of getLogsSince past
the cursor lookup is not in the source; per the spec it returns the
retained entries with sequenceId strictly greater than the client
cursor, up to the limit. -/
def queryLast (b : LogBuffer) (clientId : String) (limit : Nat) : List LogEntry :=
  let k := getClientPosition b.clientPositions clientId
  (b.buffer.filter (fun e => decide (k < e.id))).take limit

/-! ## Theorems for C4 (time cutoff resolution) -/

/-- C4: a time-based query starts at the first retained entry whose
timestamp is strictly greater than the cutoff; a cutoff predating the
oldest retained entry clamps to the oldest (the query never fails);
and a cutoff at or after every retained timestamp yields the empty
result rather than an error. -/
theorem getLogsSinceTime_spec (buffer : List LogEntry) (cutoff : Int) (limit : Nat) :
    (1 ≤ limit → (getLogsSinceTime buffer cutoff limit).head?
        = buffer.find? (fun e => decide (cutoff < e.timestamp))) ∧
    ((∀ e ∈ buffer, e.timestamp ≤ cutoff) → getLogsSinceTime buffer cutoff limit = []) ∧
    (∀ e₀, buffer.head? = some e₀ → cutoff < e₀.timestamp →
      getLogsSinceTime buffer cutoff limit = buffer.take limit) := by
  refine ⟨?_, ?_, ?_⟩
  · intro hlim
    induction buffer with
    | nil => rfl
    | cons e rest ih =>
        rw [getLogsSinceTime_cons]
        by_cases hp : cutoff < e.timestamp
        · rw [if_pos hp, List.find?_cons_of_pos _ (by simpa using hp)]
          obtain ⟨k, rfl⟩ : ∃ k, limit = k + 1 := ⟨limit - 1, by omega⟩
          rfl
        · rw [if_neg hp, List.find?_cons_of_neg _ (by simpa using hp)]
          exact ih
  · intro hall
    induction buffer with
    | nil => rfl
    | cons e rest ih =>
        rw [getLogsSinceTime_cons]
        have he : ¬ cutoff < e.timestamp := by
          have := hall e (by simp)
          omega
        rw [if_neg he]
        exact ih fun x hx => hall x (by simp [hx])
  · intro e₀ hhead hcut
    cases buffer with
    | nil => simp at hhead
    | cons e rest =>
        have he : e = e₀ := by simpa using hhead
        subst he
        rw [getLogsSinceTime_cons, if_pos hcut]

/-- C4, witness: concrete buffer with one entry after the cutoff. -/
theorem getLogsSinceTime_spec_witness :
    getLogsSinceTime [⟨1, 100, Direction.TX, [0xA7], 1⟩] 50 10
      = [⟨1, 100, Direction.TX, [0xA7], 1⟩] := by
  have h := (getLogsSinceTime_spec [⟨1, 100, Direction.TX, [0xA7], 1⟩] 50 10).2.2
    ⟨1, 100, Direction.TX, [0xA7], 1⟩ rfl (by decide)
  simpa using h

/-! ## Theorems for C5 (cursor queries) -/

/-- C5: after advanceCursor(clientId, K), a "last" query for that
client returns only entries with sequenceId > K, and exactly the
retained such entries whenever the limit does not truncate; a client
with no recorded cursor resolves to position 0, the start of retained
history. -/
theorem queryLast_spec (b : LogBuffer) (clientId : String) (K limit : Nat) :
    (getClientPosition (updateClientPosition b.clientPositions clientId K) clientId = K) ∧
    (b.clientPositions.lookup clientId = none →
      getClientPosition b.clientPositions clientId = 0) ∧
    (∀ e ∈ queryLast (b.advanceCursor clientId K) clientId limit, K < e.id) ∧
    (b.buffer.length ≤ limit →
      queryLast (b.advanceCursor clientId K) clientId limit
        = b.buffer.filter (fun e => decide (K < e.id))) := by
  have hpos : getClientPosition (updateClientPosition b.clientPositions clientId K)
      clientId = K := by
    simp [getClientPosition, updateClientPosition, List.lookup]
  refine ⟨hpos, ?_, ?_, ?_⟩
  · intro hnone
    simp [getClientPosition, hnone]
  · intro e he
    simp only [queryLast, LogBuffer.advanceCursor, hpos] at he
    have hmem := List.mem_of_mem_take he
    have := List.of_mem_filter hmem
    simpa using this
  · intro hle
    simp only [queryLast, LogBuffer.advanceCursor, hpos]
    exact List.take_of_length_le (le_trans (List.length_filter_le _ _) hle)

/-- C5, witness: a concrete cursor advance and query. -/
theorem queryLast_spec_witness :
    queryLast ((LogBuffer.empty 100).pushMany
        [⟨0, Direction.TX, [1]⟩, ⟨1, Direction.RX, [2]⟩, ⟨2, Direction.TX, [3]⟩]
      |>.advanceCursor "c1" 1) "c1" 50
      = [⟨2, 1, Direction.RX, [2], 1⟩, ⟨3, 2, Direction.TX, [3], 1⟩] := by
  have h := (queryLast_spec ((LogBuffer.empty 100).pushMany
      [⟨0, Direction.TX, [1]⟩, ⟨1, Direction.RX, [2]⟩, ⟨2, Direction.TX, [3]⟩])
    "c1" 1 50).2.2.2 (by decide)
  rw [h]
  decide

/-! ## Theorems for C1 (scan guard) -/

/-- C1, counterexample: a scan requested while the session state is
`connecting` is NOT rejected — the source guard checks only
`getState() === "connected"`, so the call proceeds and returns the scan
result, contradicting the claim that Connecting (and Disconnecting)
also fail with a ConflictFault. -/
theorem scanDevices_connecting_not_rejected :
    scanDevices ⟨ConnState.connecting, 5, 7⟩ [] =
      (⟨ConnState.connecting, 5, 7⟩, Except.ok []) := by
  rfl

/-- C1, amended: the hard guard fires exactly when the state is
`connected`: such a call fails immediately with the conflict error and
the DeviceSession is left unchanged (state and counters keep their
values); in every other state — including `connecting` and
`disconnecting` — the scan proceeds, and the session is never mutated
by the call. -/
theorem scanDevices_guard (s : DeviceSession) (found : List DeviceInfo) :
    (s.state = ConnState.connected →
      scanDevices s found = (s, Except.error scanConflictMsg)) ∧
    (s.state ≠ ConnState.connected →
      scanDevices s found = (s, Except.ok found)) ∧
    (scanDevices s found).1 = s := by
  refine ⟨fun h => ?_, fun h => ?_, ?_⟩
  · simp [scanDevices, h]
  · simp [scanDevices, h]
  · unfold scanDevices
    split <;> rfl

/-- C1, witness: the amended guard at a concrete connected session. -/
theorem scanDevices_guard_witness :
    scanDevices ⟨ConnState.connected, 3, 4⟩ [⟨"d1", "CS108", -40⟩] =
      (⟨ConnState.connected, 3, 4⟩, Except.error scanConflictMsg) :=
  (scanDevices_guard ⟨ConnState.connected, 3, 4⟩ [⟨"d1", "CS108", -40⟩]).1 rfl

/-! ## Theorems for C3 (capacity clamping) -/

/-- C3, counterexample: a requested constructor capacity of 0 is below
100, so the claim demands an effective capacity of 100; but JavaScript
`maxSize || ...` treats 0 as absent, so the constructor falls through
to the default and yields 10000, not 100. -/
theorem effectiveMaxSize_zero_counterexample :
    effectiveMaxSize (some 0) none = 10000 ∧
      effectiveMaxSize (some 0) none ≠ 100 := by
  constructor
  · rfl
  · decide

/-- C3, amended: with no requested capacity the effective capacity is
10000; a nonzero requested constructor value is clamped into
[100, 1000000] (below 100 yields 100, above 1000000 yields 1000000, in
range it is kept); a requested constructor value of 0 is treated as
absent and falls back to the environment value or the default; an
environment value (with no constructor argument) is clamped the same
way. -/
theorem effectiveMaxSize_spec (envVal : Option Int) (a v : Int) :
    effectiveMaxSize none none = 10000 ∧
    (a ≠ 0 → a < 100 → effectiveMaxSize (some a) envVal = 100) ∧
    (a ≠ 0 → a > 1000000 → effectiveMaxSize (some a) envVal = 1000000) ∧
    (a ≠ 0 → 100 ≤ a → a ≤ 1000000 → effectiveMaxSize (some a) envVal = a) ∧
    (effectiveMaxSize (some 0) envVal = effectiveMaxSize none envVal) ∧
    (effectiveMaxSize none (some v) = clampSize v) := by
  refine ⟨rfl, fun h0 h => ?_, fun h0 h => ?_, fun h0 h1 h2 => ?_, ?_, rfl⟩
  · simp only [effectiveMaxSize, rawMaxSize, if_neg h0, clampSize]
    split_ifs <;> omega
  · simp only [effectiveMaxSize, rawMaxSize, if_neg h0, clampSize]
    split_ifs <;> omega
  · simp only [effectiveMaxSize, rawMaxSize, if_neg h0, clampSize]
    split_ifs <;> omega
  · simp [effectiveMaxSize, rawMaxSize]

/-- C3, witness: the amended clamping at concrete inputs (requested 5
clamps up to 100). -/
theorem effectiveMaxSize_spec_witness :
    effectiveMaxSize (some 5) none = 100 :=
  (effectiveMaxSize_spec none 5 0).2.1 (by decide) (by decide)

/-! ## Hex rendering and pattern search (LogBuffer.searchPackets) -/

/-- Uppercase hex digit for a value below 16. -/
def hexDigitChar (n : Nat) : Char :=
  if n < 10 then Char.ofNat (48 + n) else Char.ofNat (55 + n)

/-- One byte as two uppercase hex digits. -/
def byteHexChars (b : Nat) : List Char :=
  [hexDigitChar (b / 16 % 16), hexDigitChar (b % 16)]

/-- The payload rendered as contiguous hex digits with no delimiters,
the representation the spec fixes for pattern matching. -/
def contiguousHexChars (payload : List Nat) : List Char :=
  (payload.map byteHexChars).flatten

/-- From src/utils.ts formatHex (per the response shape): the payload
as uppercase space-separated byte pairs. -/
def formatHexSpaced (payload : List Nat) : String :=
  String.intercalate " " (payload.map fun b => String.mk (byteHexChars b))

/-- Whether the first list is an initial segment of the second. -/
def listStartsWith : List Char → List Char → Bool
  | [], _ => true
  | _ :: _, [] => false
  | a :: as, b :: bs => a == b && listStartsWith as bs

/-- Whether the first list occurs as a contiguous segment of the second. -/
def listContainsSeg (needle : List Char) : List Char → Bool
  | [] => listStartsWith needle []
  | c :: rest => listStartsWith needle (c :: rest) || listContainsSeg needle rest

/-- Modelled from the spec: the searchPackets matcher body is not in
the source (only "hex pattern search with regex"); per the spec the
match is case-insensitive substring containment of the pattern in the
hex-encoded payload rendered as contiguous digits. -/
def matchesPattern (pattern : String) (payload : List Nat) : Bool :=
  listContainsSeg (pattern.toList.map Char.toUpper) (contiguousHexChars payload)

/-- Modelled from the spec: searchPackets selects the matching retained
entries in buffer order, up to the limit. -/
def searchPackets (b : LogBuffer) (pattern : String) (limit : Nat) : List LogEntry :=
  (b.buffer.filter (fun e => matchesPattern pattern e.payload)).take limit

theorem listStartsWith_iff (needle l : List Char) :
    listStartsWith needle l = true ↔ ∃ r, l = needle ++ r := by
  induction needle generalizing l with
  | nil =>
      simp [listStartsWith]
  | cons c cs ih =>
      cases l with
      | nil =>
          simp [listStartsWith]
      | cons b bs =>
          simp only [listStartsWith, Bool.and_eq_true, beq_iff_eq, ih bs,
            List.cons_append, List.cons.injEq]
          constructor
          · rintro ⟨hcb, r, hr⟩
            exact ⟨r, hcb.symm, hr⟩
          · rintro ⟨r, hbc, hr⟩
            exact ⟨hbc.symm, r, hr⟩

theorem listContainsSeg_iff (needle l : List Char) :
    listContainsSeg needle l = true ↔ ∃ a r, l = a ++ needle ++ r := by
  induction l with
  | nil =>
      simp only [listContainsSeg, listStartsWith_iff]
      constructor
      · rintro ⟨r, hr⟩
        exact ⟨[], r, by simpa using hr⟩
      · rintro ⟨a, r, hr⟩
        refine ⟨r, ?_⟩
        have h : a = [] ∧ needle = [] ∧ r = [] := by
          simpa [List.append_assoc] using hr.symm
        simp [h.2.1, h.2.2]
  | cons c rest ih =>
      simp only [listContainsSeg, Bool.or_eq_true, listStartsWith_iff, ih]
      constructor
      · rintro (⟨r, hr⟩ | ⟨a, r, hr⟩)
        · exact ⟨[], r, by simpa using hr⟩
        · exact ⟨c :: a, r, by simp [hr]⟩
      · rintro ⟨a, r, hr⟩
        cases a with
        | nil =>
            exact Or.inl ⟨r, by simpa using hr⟩
        | cons x xs =>
            right
            refine ⟨xs, r, ?_⟩
            have := hr
            simp only [List.cons_append, List.cons.injEq] at this
            exact this.2

/-! ## Theorems for C6 (hex pattern matching) -/

/-- C6, counterexample: the claim states that search with pattern
"A7B3" does not match an entry with payload bytes 1A 7B 30; but the
fixed rule — contiguous hex digits, substring semantics — renders the
payload as "1A7B30", which contains "A7B3" starting at the second
digit, so the entry does match. -/
theorem matchesPattern_misaligned :
    matchesPattern "A7B3" [0x1A, 0x7B, 0x30] = true := by
  decide

/-- C6, amended: a pattern matches exactly when its uppercased
characters occur as a contiguous segment of the payload rendered as
contiguous uppercase hex digits (case-insensitive substring
semantics); in particular "A7B3" (and lowercase "a7b3") matches
payload A7 B3 01, and — contrary to the claim text — "A7B3" also
matches payload 1A 7B 30, whose contiguous rendering "1A7B30" contains
the pattern across byte boundaries. -/
theorem matchesPattern_spec (pattern : String) (payload : List Nat) :
    (matchesPattern pattern payload = true ↔
      ∃ a r, contiguousHexChars payload = a ++ pattern.toList.map Char.toUpper ++ r) ∧
    matchesPattern "A7B3" [0xA7, 0xB3, 0x01] = true ∧
    matchesPattern "a7b3" [0xA7, 0xB3, 0x01] = true ∧
    matchesPattern "A7B3" [0x1A, 0x7B, 0x30] = true := by
  refine ⟨?_, by decide, by decide, by decide⟩
  exact listContainsSeg_iff (pattern.toList.map Char.toUpper) (contiguousHexChars payload)

/-! ## Theorems for C7 (result ordering) -/

/-- Chronological ascending order with ties broken by sequence id. -/
def chronAsc (a b : LogEntry) : Prop :=
  a.timestamp < b.timestamp ∨ (a.timestamp = b.timestamp ∧ a.id < b.id)

/-- A response entry of the get_logs / search_packets shape:
sequenceId, timestamp, direction, hex (uppercase, space-separated),
length. -/
structure ResponseEntry where
  id : Nat
  timestamp : Int
  direction : Direction
  hex : String
  size : Nat
deriving DecidableEq, Repr

/-- From the response shape: one buffer entry rendered for a response. -/
def toResponseEntry (e : LogEntry) : ResponseEntry :=
  ⟨e.id, e.timestamp, e.direction, formatHexSpaced e.payload, e.size⟩

/-- Chronological ascending order on response entries. -/
def chronAscResp (a b : ResponseEntry) : Prop :=
  a.timestamp < b.timestamp ∨ (a.timestamp = b.timestamp ∧ a.id < b.id)

/-- Every time-based query result is a subsequence of the buffer. -/
theorem getLogsSinceTime_sublist (buffer : List LogEntry) (cutoff : Int) (limit : Nat) :
    List.Sublist (getLogsSinceTime buffer cutoff limit) buffer := by
  unfold getLogsSinceTime
  by_cases h : parseSinceIndex buffer cutoff < 0
  · simp only [h, if_true]
    exact List.nil_sublist buffer
  · simp only [h, if_false]
    exact (List.take_sublist _ _).trans (List.drop_sublist _ _)

/-- The retained buffer of a push trace with nondecreasing capture
timestamps is chronologically ascending with ties broken by id. -/
theorem pushMany_buffer_chronAsc (C : Nat) (hC : 1 ≤ C) (L : List PushReq)
    (hts : List.Pairwise (fun a b : PushReq => a.timestamp ≤ b.timestamp) L) :
    List.Pairwise chronAsc ((LogBuffer.empty C).pushMany L).buffer := by
  obtain ⟨hmax, hcnt, hbuf⟩ := pushMany_empty_closed C hC L
  have hidm : List.Pairwise (· < ·) ((numberedFrom 0 L).map LogEntry.id) := by
    rw [numberedFrom_map_id]
    exact List.pairwise_lt_range' _ _ 1 (by omega)
  have hid : List.Pairwise (fun a b : LogEntry => a.id < b.id) (numberedFrom 0 L) :=
    List.pairwise_map.mp hidm
  have htsm : List.Pairwise (· ≤ ·) ((numberedFrom 0 L).map LogEntry.timestamp) := by
    rw [numberedFrom_map_timestamp]
    exact List.pairwise_map.mpr hts
  have hts2 : List.Pairwise (fun a b : LogEntry => a.timestamp ≤ b.timestamp)
      (numberedFrom 0 L) := List.pairwise_map.mp htsm
  have hall : List.Pairwise chronAsc (numberedFrom 0 L) := by
    refine (hts2.and hid).imp ?_
    rintro a b ⟨h1, h2⟩
    rcases lt_or_eq_of_le h1 with h | h
    · exact Or.inl h
    · exact Or.inr ⟨h, h2⟩
  rw [hbuf]
  exact hall.sublist (List.drop_sublist _ _)

/-- C7: over any push trace with nondecreasing capture timestamps, the
time-based query result, the cursor ("last") query result and the
search result are each in ascending chronological order with ties
broken by ascending sequenceId, and the same holds for the rendered
entries arrays of the get_logs and search_packets responses. -/
theorem results_sorted (C : Nat) (hC : 1 ≤ C) (L : List PushReq)
    (hts : List.Pairwise (fun a b : PushReq => a.timestamp ≤ b.timestamp) L)
    (cutoff : Int) (limit : Nat) (clientId : String) (pattern : String) :
    List.Pairwise chronAsc
      (getLogsSinceTime ((LogBuffer.empty C).pushMany L).buffer cutoff limit) ∧
    List.Pairwise chronAsc (queryLast ((LogBuffer.empty C).pushMany L) clientId limit) ∧
    List.Pairwise chronAsc (searchPackets ((LogBuffer.empty C).pushMany L) pattern limit) ∧
    List.Pairwise chronAscResp
      ((getLogsSinceTime ((LogBuffer.empty C).pushMany L).buffer cutoff limit).map
        toResponseEntry) ∧
    List.Pairwise chronAscResp
      ((searchPackets ((LogBuffer.empty C).pushMany L) pattern limit).map
        toResponseEntry) := by
  have hbufp := pushMany_buffer_chronAsc C hC L hts
  have h1 : List.Pairwise chronAsc
      (getLogsSinceTime ((LogBuffer.empty C).pushMany L).buffer cutoff limit) :=
    hbufp.sublist (getLogsSinceTime_sublist _ _ _)
  have h2 : List.Pairwise chronAsc
      (queryLast ((LogBuffer.empty C).pushMany L) clientId limit) :=
    hbufp.sublist ((List.take_sublist _ _).trans (List.filter_sublist _))
  have h3 : List.Pairwise chronAsc
      (searchPackets ((LogBuffer.empty C).pushMany L) pattern limit) :=
    hbufp.sublist ((List.take_sublist _ _).trans (List.filter_sublist _))
  refine ⟨h1, h2, h3, ?_, ?_⟩
  · exact List.pairwise_map.mpr (h1.imp fun h => h)
  · exact List.pairwise_map.mpr (h3.imp fun h => h)

/-- C7, witness: ordering of a concrete query result. -/
theorem results_sorted_witness :
    List.Pairwise chronAsc
      (getLogsSinceTime ((LogBuffer.empty 100).pushMany
          [⟨0, Direction.TX, [1]⟩, ⟨1, Direction.RX, [2]⟩, ⟨2, Direction.TX, [3]⟩]).buffer
        0 10) :=
  (results_sorted 100 (by decide)
      [⟨0, Direction.TX, [1]⟩, ⟨1, Direction.RX, [2]⟩, ⟨2, Direction.TX, [3]⟩]
      (by decide) 0 10 "c1" "A7").1

/-! ## HTTP transport authentication (createHttpTransport) -/

/-- From the source createHttpTransport: the authHandler is installed
only when a token is configured (`token ? ... : undefined`); it
accepts exactly requests whose Authorization header equals
`Bearer <token>` (`!authHeader || authHeader !== ...` rejects);
with no configured token there is no authHandler and every request is
accepted. -/
def authAccepts (token : Option String) (authHeader : Option String) : Bool :=
  match token with
  | none => true
  | some t =>
      match authHeader with
      | none => false
      | some h => h == "Bearer " ++ t

/-- Modelled from the spec: the request dispatch around the
authHandler is not in the source; per the spec a request that fails
the credential check is rejected before any operation executes (no
partial state change), and an accepted request runs the operation. -/
def handleHttpRequest {σ ρ : Type} (token : Option String) (authHeader : Option String)
    (op : σ → σ × ρ) (st : σ) : σ × Except String ρ :=
  if authAccepts token authHeader then
    ((op st).1, Except.ok (op st).2)
  else
    (st, Except.error "unauthorized")

/-! ## Theorems for C8 (bearer credential gate) -/

/-- C8: when a bearer secret is configured, every request whose
credential does not match the expected `Bearer <token>` header is
rejected with the server state unchanged — no operation executes; when
no secret is configured, every request (with any header, or none) runs
its operation. -/
theorem handleHttpRequest_spec {σ ρ : Type} (token authHeader : Option String)
    (op : σ → σ × ρ) (st : σ) :
    (∀ t, token = some t → authHeader ≠ some ("Bearer " ++ t) →
      handleHttpRequest token authHeader op st = (st, Except.error "unauthorized")) ∧
    (token = none →
      handleHttpRequest token authHeader op st = ((op st).1, Except.ok (op st).2)) := by
  constructor
  · intro t htok hmis
    have hacc : authAccepts token authHeader = false := by
      subst htok
      cases authHeader with
      | none => rfl
      | some h =>
          simp only [authAccepts, beq_eq_false_iff_ne, ne_eq]
          intro he
          exact hmis (by rw [he])
    simp [handleHttpRequest, hacc]
  · intro htok
    subst htok
    simp [handleHttpRequest, authAccepts]

/-- C8, witness: a mismatching credential against token "secret"
leaves a counter state unchanged and is rejected; seen through a
concrete operation that would increment the counter. -/
theorem handleHttpRequest_spec_witness :
    handleHttpRequest (some "secret") (some "Bearer nope")
        (fun n : Nat => (n + 1, "done")) 0
      = (0, Except.error "unauthorized") :=
  (handleHttpRequest_spec (some "secret") (some "Bearer nope")
      (fun n : Nat => (n + 1, "done")) 0).1 "secret" rfl (by decide)

/-! ## E2E battery test page (testBatteryCommand, src/unnamed/part_001) -/

/-- From the notification handler of the test page: a payload
qualifies as the battery voltage response when it has length at least
12 and `data[5] === 0x9E`, `data[8] === 0xA0`, `data[9] === 0x00`. -/
def isBatteryResponse (data : List Nat) : Bool :=
  decide (12 ≤ data.length) && (data.getD 5 0 == 0x9E)
    && (data.getD 8 0 == 0xA0) && (data.getD 9 0 == 0x00)

/-- From the handler: `const voltage = (data[10] << 8) | data[11]`. -/
def batteryVoltageOf (data : List Nat) : Nat :=
  ((data.getD 10 0) <<< 8) ||| (data.getD 11 0)

/-- The latch state of the handler: the `batteryReceived` flag and the
recorded `results.batteryVoltage`. -/
structure BatteryLatch where
  batteryReceived : Bool
  batteryVoltage : Option Nat
deriving DecidableEq, Repr

/-- From the handler: one notification updates the latch only when the
payload qualifies and the latch is not yet set
(`... && !batteryReceived`). -/
def notifyStep (s : BatteryLatch) (data : List Nat) : BatteryLatch :=
  if isBatteryResponse data && !s.batteryReceived then
    { batteryReceived := true, batteryVoltage := some (batteryVoltageOf data) }
  else s

/-- The handler applied to the sequence of delivered notifications, in
arrival order. -/
def runNotifications (ns : List (List Nat)) : BatteryLatch :=
  ns.foldl notifyStep { batteryReceived := false, batteryVoltage := none }

theorem foldl_notifyStep_latched (ns : List (List Nat)) (s : BatteryLatch)
    (h : s.batteryReceived = true) : ns.foldl notifyStep s = s := by
  induction ns with
  | nil => rfl
  | cons d rest ih =>
      have hstep : notifyStep s d = s := by
        simp [notifyStep, h]
      simp only [List.foldl_cons, hstep]
      exact ih

/-! ## Theorems for C9 (battery voltage latch) -/

/-- C9: over any delivered notification sequence, the recorded battery
voltage is `(data[10] << 8) | data[11]` of the first qualifying
notification (length ≥ 12, byte 5 = 0x9E, byte 8 = 0xA0,
byte 9 = 0x00) and of no later one — the latch is set exactly when a
qualifying notification exists, and notifications after the first
qualifying one never change the result. -/
theorem runNotifications_first_qualifying (ns : List (List Nat)) :
    (runNotifications ns).batteryVoltage
        = (ns.find? isBatteryResponse).map batteryVoltageOf ∧
    (runNotifications ns).batteryReceived = (ns.find? isBatteryResponse).isSome := by
  induction ns with
  | nil => exact ⟨rfl, rfl⟩
  | cons d rest ih =>
      by_cases hq : isBatteryResponse d = true
      · have hstep : notifyStep { batteryReceived := false, batteryVoltage := none } d
            = { batteryReceived := true, batteryVoltage := some (batteryVoltageOf d) } := by
          simp [notifyStep, hq]
        have hrun : runNotifications (d :: rest)
            = { batteryReceived := true, batteryVoltage := some (batteryVoltageOf d) } := by
          simp only [runNotifications, List.foldl_cons, hstep]
          exact foldl_notifyStep_latched rest _ rfl
        rw [hrun, List.find?_cons_of_pos _ hq]
        exact ⟨rfl, rfl⟩
      · have hstep : notifyStep { batteryReceived := false, batteryVoltage := none } d
            = { batteryReceived := false, batteryVoltage := none } := by
          simp [notifyStep, hq]
        have hrun : runNotifications (d :: rest) = runNotifications rest := by
          simp only [runNotifications, List.foldl_cons, hstep]
        rw [hrun, List.find?_cons_of_neg _ (by simpa using hq)]
        exact ih

/-! ## Theorems for C10 (testBatteryCommand error containment) -/

/-- The outcomes of the external calls testBatteryCommand makes, in
program order: whether the WebBleMock global is present, URL
construction, requestDevice (yielding the device name), gatt.connect,
getPrimaryService, the two getCharacteristic calls,
startNotifications, writeValue, the notifications delivered before the
5-second timeout, and gatt.disconnect. Each fallible call either
succeeds or throws the given message. -/
structure TestEnv where
  mockLoaded : Bool
  urlOk : Except String Unit
  requestDevice : Except String String
  connect : Except String Unit
  getService : Except String Unit
  getWriteChar : Except String Unit
  getNotifyChar : Except String Unit
  startNotifications : Except String Unit
  writeValue : Except String Unit
  notifications : List (List Nat)
  disconnect : Except String Unit

/-- The results object of the test page: `connected`, `device`,
`batteryVoltage`, `error`, initialised to false/null. -/
structure TestResults where
  connected : Bool
  device : Option String
  batteryVoltage : Option Nat
  error : Option String
deriving DecidableEq, Repr

/-- The message thrown when the WebBleMock global is missing. -/
def mockMissingMsg : String :=
  "WebBleMock global not found - bundle may not be loaded"

/-- From the test page `window.testBatteryCommand`: the try block runs
the calls in order, assigning `results.device` after requestDevice,
`results.connected` after gatt.connect, and `results.batteryVoltage`
from the notification latch after a successful write; the catch block
stores the thrown message in `results.error` and returns the results
object, so the function always returns and fields not yet assigned at
the failure point keep their initial values. -/
def testBatteryCommand (env : TestEnv) : TestResults :=
  let r0 : TestResults :=
    { connected := false, device := none, batteryVoltage := none, error := none }
  if !env.mockLoaded then { r0 with error := some mockMissingMsg } else
  match env.urlOk with
  | Except.error e => { r0 with error := some e }
  | Except.ok _ =>
  match env.requestDevice with
  | Except.error e => { r0 with error := some e }
  | Except.ok nm =>
  let r1 := { r0 with device := some nm }
  match env.connect with
  | Except.error e => { r1 with error := some e }
  | Except.ok _ =>
  let r2 := { r1 with connected := true }
  match env.getService with
  | Except.error e => { r2 with error := some e }
  | Except.ok _ =>
  match env.getWriteChar with
  | Except.error e => { r2 with error := some e }
  | Except.ok _ =>
  match env.getNotifyChar with
  | Except.error e => { r2 with error := some e }
  | Except.ok _ =>
  match env.startNotifications with
  | Except.error e => { r2 with error := some e }
  | Except.ok _ =>
  match env.writeValue with
  | Except.error e => { r2 with error := some e }
  | Except.ok _ =>
  let r3 := { r2 with
    batteryVoltage := (runNotifications env.notifications).batteryVoltage }
  match env.disconnect with
  | Except.error e => { r3 with error := some e }
  | Except.ok _ => r3

/-- C10: testBatteryCommand always returns a results object; when the
WebBleMock global is missing, or URL construction, requestDevice,
connect or write throws, the returned object carries the thrown
message in `error` and every field not yet assigned at that point
keeps its initial null/false value (`device` keeps the name once
assigned, `connected` stays true once set); and on full success the
error field is null and the voltage is the latched value. -/
theorem testBatteryCommand_spec (env : TestEnv) :
    (env.mockLoaded = false →
      testBatteryCommand env = ⟨false, none, none, some mockMissingMsg⟩) ∧
    (∀ e, env.mockLoaded = true → env.urlOk = Except.error e →
      testBatteryCommand env = ⟨false, none, none, some e⟩) ∧
    (∀ e, env.mockLoaded = true → env.urlOk = Except.ok () →
      env.requestDevice = Except.error e →
      testBatteryCommand env = ⟨false, none, none, some e⟩) ∧
    (∀ nm e, env.mockLoaded = true → env.urlOk = Except.ok () →
      env.requestDevice = Except.ok nm → env.connect = Except.error e →
      testBatteryCommand env = ⟨false, some nm, none, some e⟩) ∧
    (∀ nm e, env.mockLoaded = true → env.urlOk = Except.ok () →
      env.requestDevice = Except.ok nm → env.connect = Except.ok () →
      env.getService = Except.ok () → env.getWriteChar = Except.ok () →
      env.getNotifyChar = Except.ok () → env.startNotifications = Except.ok () →
      env.writeValue = Except.error e →
      testBatteryCommand env = ⟨true, some nm, none, some e⟩) ∧
    (∀ nm, env.mockLoaded = true → env.urlOk = Except.ok () →
      env.requestDevice = Except.ok nm → env.connect = Except.ok () →
      env.getService = Except.ok () → env.getWriteChar = Except.ok () →
      env.getNotifyChar = Except.ok () → env.startNotifications = Except.ok () →
      env.writeValue = Except.ok () → env.disconnect = Except.ok () →
      testBatteryCommand env
        = ⟨true, some nm, (runNotifications env.notifications).batteryVoltage, none⟩) := by
  refine ⟨?_, ?_, ?_, ?_, ?_, ?_⟩
  · intro h
    simp [testBatteryCommand, h]
  · intro e h1 h2
    simp [testBatteryCommand, h1, h2]
  · intro e h1 h2 h3
    simp [testBatteryCommand, h1, h2, h3]
  · intro nm e h1 h2 h3 h4
    simp [testBatteryCommand, h1, h2, h3, h4]
  · intro nm e h1 h2 h3 h4 h5 h6 h7 h8 h9
    simp [testBatteryCommand, h1, h2, h3, h4, h5, h6, h7, h8, h9]
  · intro nm h1 h2 h3 h4 h5 h6 h7 h8 h9 h10
    simp [testBatteryCommand, h1, h2, h3, h4, h5, h6, h7, h8, h9, h10]

/-- C10, witness: a concrete run where gatt.connect throws — the
error message is recorded, the device name is kept, and `connected`
and `batteryVoltage` keep their initial values. -/
theorem testBatteryCommand_spec_witness :
    testBatteryCommand
        { mockLoaded := true, urlOk := Except.ok (), requestDevice := Except.ok "CS108",
          connect := Except.error "GATT connect failed", getService := Except.ok (),
          getWriteChar := Except.ok (), getNotifyChar := Except.ok (),
          startNotifications := Except.ok (), writeValue := Except.ok (),
          notifications := [], disconnect := Except.ok () }
      = ⟨false, some "CS108", none, some "GATT connect failed"⟩ :=
  (testBatteryCommand_spec
      { mockLoaded := true, urlOk := Except.ok (), requestDevice := Except.ok "CS108",
        connect := Except.error "GATT connect failed", getService := Except.ok (),
        getWriteChar := Except.ok (), getNotifyChar := Except.ok (),
        startNotifications := Except.ok (), writeValue := Except.ok (),
        notifications := [], disconnect := Except.ok () }).2.2.2.1
    "CS108" "GATT connect failed" rfl rfl rfl rfl

end WebBleBridge
